import Mathlib

/-!
# Spring engine script bindings: `rts/Lua/LuaFonts.cpp` and `rts/System/Script/LuaFunctions.cpp`

A shallow embedding of the two binding files.  A Lua C function is a function from the
interpreter state and the argument list of the call (stack index 1 first) to an `Outcome`:
the values it returns or the error it raises, and the state it leaves behind.  Every call
into the native font object or into OpenGL that has an effect is appended to the
`calls` log of the state, so "the native object was not reached" is "the log did not grow".

Lua numbers are an abstract type `ν`, which also stands for the C type `float`: the
bindings only move numbers, and a number read with `luaL_checkfloat` is the number that
was passed.  The conversions of `luaconf.h` and the engine collaborators that are not
part of the two files are fields of `Engine ν`.  Lua strings are byte strings and may
hold NUL characters; where the C code reads one through a `const char*` it sees the
characters before the first NUL only.
-/

namespace Spring

/-! ## Lua values, errors, argument access -/

/-- A Lua value as the C API sees it.  A table is given by its array part
`t[1], t[2], ...`; a userdata is the index of its block in `lua_State.udata`. -/
inductive LuaValue (ν : Type) where
  | nil
  | boolean (b : Bool)
  | number (n : ν)
  | string (s : String)
  | table (arr : List (LuaValue ν))
  | cfunction (name : String)
  | userdata (id : Nat)

/-- The two ways a binding raises a Lua error: `luaL_error` with a message, and the
argument type error of `luaL_typerror` that the `luaL_check*` functions raise. -/
inductive LuaError where
  | error (msg : String)
  | typerror (narg : Nat) (tname : String)
  deriving DecidableEq, Repr

/-- The value at a positive stack index of the call frame; `none` is `LUA_TNONE`. -/
def index {ν : Type} (args : List (LuaValue ν)) (idx : Nat) : Option (LuaValue ν) :=
  if idx = 0 then none else args[idx - 1]?

/-- The C API `lua_isnil`: the value is there and is nil. -/
def lua_isnil {ν : Type} : Option (LuaValue ν) → Bool
  | some .nil => true
  | _ => false

/-- The C API `lua_isnoneornil`. -/
def lua_isnoneornil {ν : Type} : Option (LuaValue ν) → Bool
  | none => true
  | some .nil => true
  | _ => false

/-- The C API `lua_istable`. -/
def lua_istable {ν : Type} : Option (LuaValue ν) → Bool
  | some (.table _) => true
  | _ => false

/-- The characters of a Lua string that C code sees through a `const char*`:
those before the first NUL. -/
def cstr (s : String) : String :=
  ⟨s.data.takeWhile (fun c => c != Char.ofNat 0)⟩

/-! ## Drawing flags and the option string of `Print` -/

/-- The `FONT_*` bit masks of `Rendering/Fonts/glFont.h`, which is not part of the two
files: they are parameters of the embedding. -/
structure FontConsts where
  FONT_CENTER : Nat
  FONT_RIGHT : Nat
  FONT_ASCENDER : Nat
  FONT_TOP : Nat
  FONT_VCENTER : Nat
  FONT_BASELINE : Nat
  FONT_BOTTOM : Nat
  FONT_DESCENDER : Nat
  FONT_SHADOW : Nat
  FONT_OUTLINE : Nat
  FONT_NEAREST : Nat
  deriving DecidableEq, Repr

/-- The body of the `switch (*c)` of `LuaFonts::Print` (lines 219-236): the effect of one
option character on `options`. -/
def Print_switch (K : FontConsts) (options : Nat) (c : Char) : Nat :=
  if c = 'c' then options ||| K.FONT_CENTER
  else if c = 'r' then options ||| K.FONT_RIGHT
  else if c = 'a' then options ||| K.FONT_ASCENDER
  else if c = 't' then options ||| K.FONT_TOP
  else if c = 'v' then options ||| K.FONT_VCENTER
  else if c = 'x' then options ||| K.FONT_BASELINE
  else if c = 'b' then options ||| K.FONT_BOTTOM
  else if c = 'd' then options ||| K.FONT_DESCENDER
  else if c = 's' then options ||| K.FONT_SHADOW
  else if c = 'o' then options ||| K.FONT_OUTLINE
  else if c = 'O' then options ||| K.FONT_OUTLINE
  else if c = 'n' then options ^^^ K.FONT_NEAREST
  else options

/-- The loop `while (*c != 0) { switch (*c) {...} c++; }` of `LuaFonts::Print`
(lines 218-238) over the bytes `lua_tostring` points at: it ends at the end of the
string or at the first NUL, whichever comes first. -/
def Print_while (K : FontConsts) : List Char → Nat → Nat
  | [], options => options
  | c :: cs, options =>
    if c = Char.ofNat 0 then options else Print_while K cs (Print_switch K options c)

/-- The drawing flags `LuaFonts::Print` computes from an option string (lines 214-239):
`options` starts as `FONT_NEAREST` and the loop runs over the string. -/
def Print_options (K : FontConsts) (s : String) : Nat :=
  Print_while K s.data K.FONT_NEAREST

/-- The option characters the `switch` of `Print` has a case for. -/
def recognized (c : Char) : Bool :=
  c ∈ ['c', 'r', 'a', 't', 'v', 'x', 'b', 'd', 's', 'o', 'O', 'n']

/-- The `FONT_*` values used for concrete evaluation: distinct single bits, as in the
engine header. -/
def springFontConsts : FontConsts where
  FONT_RIGHT := 2
  FONT_CENTER := 4
  FONT_BASELINE := 8
  FONT_VCENTER := 16
  FONT_TOP := 32
  FONT_BOTTOM := 64
  FONT_ASCENDER := 128
  FONT_DESCENDER := 256
  FONT_OUTLINE := 512
  FONT_SHADOW := 1024
  FONT_NEAREST := 8192

/-! ## The engine collaborators -/

/-- The names the property `switch` of `meta_index` has a `case` label for, in source order. -/
def propertyNames : List String :=
  ["size", "path", "height", "lineheight", "descender", "outlinewidth", "outlineweight",
   "family", "style", "texturewidth", "textureheight"]

/-- The C++ struct `float4` (x, y, z, w). -/
structure float4 (ν : Type) where
  x : ν
  y : ν
  z : ν
  w : ν

/-- Modelled from the spec: the native font object `CglFont` (`Rendering/Fonts/glFont`),
which is not part of the two files.  It stores the values its loader receives (path,
size, outline width, outline weight) next to what the font file yields, and its getters
return what is stored.  `this` is the address of the object. -/
structure CglFont (ν : Type) where
  this : Nat
  fontPath : String
  fontSize : Int
  outlineWidth : Int
  outlineWeight : ν
  lineHeight : ν
  descender : ν
  family : String
  style : String
  textureWidth : Int
  textureHeight : Int
  texture : Nat

/-- What is read from a font file when it loads: metrics, names and the glyph texture. -/
structure FontFace (ν : Type) where
  lineHeight : ν
  descender : ν
  family : String
  style : String
  textureWidth : Int
  textureHeight : Int
  texture : Nat

/-- Everything the two files call that is defined elsewhere: the number conversions of
`luaconf.h`, `hashString`, the default constructor of `float4`, the font files, and the
text layout of `CglFont`.  The `FONT_*` values are in `flags`. -/
structure Engine (ν : Type) where
  /-- The conversion `lua_number2int` behind `luaL_optint`. -/
  lua_number2int : ν → Int
  /-- The C conversion of an `int` (or an integral literal such as `1.0f`) to a number. -/
  int2number : Int → ν
  /-- The conversion `lua_str2number`: the number a string denotes, if it denotes one. -/
  lua_str2number : String → Option ν
  /-- The conversion `lua_number2str`. -/
  lua_number2str : ν → String
  /-- The function `hashString(const char*)`. -/
  hashString : String → Nat
  /-- The `case` labels of a `switch` are pairwise distinct, or it does not compile. -/
  hashString_labels : (propertyNames.map hashString).Nodup
  /-- The value of a `float4` declared without an initialiser. -/
  float4_default : float4 ν
  /-- The order in which the compiled code evaluates the arguments of one call, which
  C++ leaves unspecified: right to left (as g++ does) or left to right. -/
  argsRightToLeft : Bool
  /-- The font file at a path, when it loads. -/
  face : String → Option (FontFace ν)
  /-- The method `CglFont::WrapInPlace(text, size, maxWidth, maxHeight)`: the wrapped text
  and the line count. -/
  WrapInPlace : CglFont ν → String → ν → ν → ν → String × Int
  /-- The method `CglFont::GetTextWidth(text)`. -/
  GetTextWidth : CglFont ν → String → ν
  /-- The method `CglFont::GetTextHeight(text, &descender, &lines)`: height, descender, lines. -/
  GetTextHeight : CglFont ν → String → ν × ν × Int
  flags : FontConsts

/-- A call into the native font or into OpenGL that has an effect, with its arguments;
`font` is the address of the `CglFont` it is made on. -/
inductive NativeCall (ν : Type) where
  | LoadFont (path : String) (size outlineWidth : Int) (outlineWeight : ν)
  | delete (font : Nat)
  | glPrint (font : Nat) (x y size : ν) (options : Nat) (text : String)
  | Begin (font : Nat)
  | End (font : Nat)
  | SetTextColor (font : Nat) (color : float4 ν)
  | SetOutlineColor (font : Nat) (color : float4 ν)
  | SetAutoOutlineColor (font : Nat) (enable : Bool)
  | glBindTexture (texture : Nat)
  | glEnable

/-- A userdata block: the name of its metatable in the registry and, for a font handle,
the `CglFont*` it holds (`none` is `nullptr`; a live pointer is given by the object it
points at). -/
structure UData (ν : Type) where
  tname : String
  font : Option (CglFont ν)

/-- The part of the interpreter and engine state the font bindings read or write. -/
structure lua_State (ν : Type) where
  /-- The answer of `LuaOpenGL::IsDrawingEnabled(L)`. -/
  drawingEnabled : Bool
  /-- The userdata blocks; `LuaValue.userdata i` is block `i`. -/
  udata : List (UData ν)
  /-- The address the next native font is allocated at. -/
  nextFont : Nat
  /-- The native calls made so far, oldest first. -/
  calls : List (NativeCall ν)

/-- What a call of a Lua C function leaves: the values it returns (`return n` with the
top `n` values) or the error it raised, and the state after it. -/
structure Outcome (ν : Type) where
  ret : Except LuaError (List (LuaValue ν))
  L : lua_State ν

/-! ## The Lua auxiliary library -/

/-- The C API `lua_tonumber` with its success flag: a number, or a string that denotes one. -/
def lua_tonumber {ν : Type} (E : Engine ν) : Option (LuaValue ν) → Option ν
  | some (.number n) => some n
  | some (.string s) => E.lua_str2number s
  | _ => none

/-- The C API `lua_tostring` with its success flag: a string, or a number converted to one. -/
def lua_tostring {ν : Type} (E : Engine ν) : Option (LuaValue ν) → Option String
  | some (.string s) => some s
  | some (.number n) => some (E.lua_number2str n)
  | _ => none

/-- The C API `lua_isstring`: strings and numbers. -/
def lua_isstring {ν : Type} (E : Engine ν) (v : Option (LuaValue ν)) : Bool :=
  (lua_tostring E v).isSome

/-- The auxiliary `luaL_checknumber`, and the engine macro `luaL_checkfloat` over it. -/
def luaL_checkfloat {ν : Type} (E : Engine ν) (args : List (LuaValue ν)) (narg : Nat) :
    Except LuaError ν :=
  match lua_tonumber E (index args narg) with
  | some n => .ok n
  | none => .error (.typerror narg "number")

/-- The engine macro `luaL_optfloat`: the default for an absent or nil argument. -/
def luaL_optfloat {ν : Type} (E : Engine ν) (args : List (LuaValue ν)) (narg : Nat) (d : ν) :
    Except LuaError ν :=
  if lua_isnoneornil (index args narg) then .ok d else luaL_checkfloat E args narg

/-- The auxiliary `luaL_optint`: the default for an absent or nil argument, else the
number converted to an `int`. -/
def luaL_optint {ν : Type} (E : Engine ν) (args : List (LuaValue ν)) (narg : Nat) (d : Int) :
    Except LuaError Int :=
  if lua_isnoneornil (index args narg) then .ok d
  else match lua_tonumber E (index args narg) with
    | some n => .ok (E.lua_number2int n)
    | none => .error (.typerror narg "number")

/-- The auxiliary `luaL_checkstring`: the whole Lua string (`lua_strlen` is its length). -/
def luaL_checkstring {ν : Type} (E : Engine ν) (args : List (LuaValue ν)) (narg : Nat) :
    Except LuaError String :=
  match lua_tostring E (index args narg) with
  | some s => .ok s
  | none => .error (.typerror narg "string")

/-- The engine helper `luaL_checkboolean`. -/
def luaL_checkboolean {ν : Type} (args : List (LuaValue ν)) (narg : Nat) :
    Except LuaError Bool :=
  match index args narg with
  | some (.boolean b) => .ok b
  | _ => .error (.typerror narg "boolean")

/-- The auxiliary `luaL_checkudata(L, idx, tname)`: the block of a userdata whose
metatable is the registry entry `tname`. -/
def luaL_checkudata {ν : Type} (L : lua_State ν) (args : List (LuaValue ν)) (idx : Nat)
    (tname : String) : Except LuaError Nat :=
  match index args idx with
  | some (.userdata id) =>
    match L.udata[id]? with
    | some u => if u.tname = tname then .ok id else .error (.typerror idx tname)
    | none => .error (.typerror idx tname)
  | _ => .error (.typerror idx tname)

/-! ## Collaborators modelled from the specification -/

/-- Modelled from the spec: the loader `CglFont::LoadFont(path, size, outlinewidth,
outlineweight)`, which is not part of the two files.  It yields no font when the file
does not load, and otherwise a font at address `this` that stores the four values it
received. -/
def CglFont.LoadFont {ν : Type} (E : Engine ν) (this : Nat) (path : String)
    (size outlinewidth : Int) (outlineweight : ν) : Option (CglFont ν) :=
  match E.face path with
  | none => none
  | some a =>
    some { this := this, fontPath := path, fontSize := size, outlineWidth := outlinewidth,
           outlineWeight := outlineweight, lineHeight := a.lineHeight,
           descender := a.descender, family := a.family, style := a.style,
           textureWidth := a.textureWidth, textureHeight := a.textureHeight,
           texture := a.texture }

/-- Modelled from the spec: the helper `LuaUtils::ParseFloatArray(L, index, array, size)`,
which is not part of the two files.  It reads the numeric sequence in the table: the
elements `t[1], t[2], ...` up to the first that is not a number, `size` of them at most;
the result is the list of numbers read, which it stores in `array[0..]` and whose length
it returns. -/
def ParseFloatArray {ν : Type} (E : Engine ν) : List (LuaValue ν) → Nat → List ν
  | _, 0 => []
  | [], _ + 1 => []
  | v :: vs, size + 1 =>
    match lua_tonumber E (some v) with
    | some x => x :: ParseFloatArray E vs size
    | none => []

/-- The colour after `ParseFloatArray(L, 2, &color.x, 4)` stored the numbers it read:
component `i` is overwritten when a number `i` was read. -/
def float4.store {ν : Type} (color : float4 ν) (read : List ν) : float4 ν :=
  { x := read[0]?.getD color.x, y := read[1]?.getD color.y,
    z := read[2]?.getD color.z, w := read[3]?.getD color.w }

/-! ## `LuaFonts.cpp` -/

namespace LuaFonts

/-- The table `CreateMetatable` builds and registers as "Font" (lines 30-58): the two
metamethods, the `__metatable` string, and one C function for each registered method. -/
def CreateMetatable {ν : Type} : List (String × LuaValue ν) :=
  [("__gc", .cfunction "meta_gc"),
   ("__index", .cfunction "meta_index"),
   ("__metatable", .string "protected metatable"),
   ("Print", .cfunction "Print"),
   ("Begin", .cfunction "Begin"),
   ("End", .cfunction "End"),
   ("WrapText", .cfunction "WrapText"),
   ("GetTextWidth", .cfunction "GetTextWidth"),
   ("GetTextHeight", .cfunction "GetTextHeight"),
   ("SetTextColor", .cfunction "SetTextColor"),
   ("SetOutlineColor", .cfunction "SetOutlineColor"),
   ("SetAutoOutlineColor", .cfunction "SetAutoOutlineColor"),
   ("BindTexture", .cfunction "BindTexture")]

/-- The C API `lua_rawget` on the "Font" metatable, whose keys are all strings: the value
stored under the key, `none` for nil (no entry). -/
def lua_rawget {ν : Type} (t : List (String × LuaValue ν)) :
    Option (LuaValue ν) → Option (LuaValue ν)
  | some (.string key) => t.lookup key
  | _ => none

/-- The helper `CheckDrawingEnabled` (lines 64-70). -/
def CheckDrawingEnabled {ν : Type} (L : lua_State ν) (caller : String) : Except LuaError Unit :=
  if !L.drawingEnabled then
    .error (.error (caller ++ "(): OpenGL calls can only be used in Draw() "
                           ++ "call-ins, or while creating display lists"))
  else .ok ()

/-- The helper `tofont` (lines 73-81): the native font a handle holds. -/
def tofont {ν : Type} (L : lua_State ν) (args : List (LuaValue ν)) (idx : Nat) :
    Except LuaError (CglFont ν) :=
  match luaL_checkudata L args idx "Font" with
  | .error e => .error e
  | .ok id =>
    match (L.udata[id]?).bind (fun u => u.font) with
    | none => .error (.error "attempt to use a deleted font")
    | some f => .ok f

/-- The metamethod `meta_gc` (lines 87-97): `delete *font; *font = nullptr`.  Deleting a
null pointer does nothing; deleting a font is logged. -/
def meta_gc {ν : Type} (L : lua_State ν) (args : List (LuaValue ν)) : Outcome ν :=
  if lua_isnil (index args 1) then ⟨.ok [], L⟩
  else
    match luaL_checkudata L args 1 "Font" with
    | .error e => ⟨.error e, L⟩
    | .ok id =>
      match (L.udata[id]?).bind (fun u => u.font) with
      | none => ⟨.ok [], { L with udata := L.udata.set id ⟨"Font", none⟩ }⟩
      | some f =>
        ⟨.ok [], { L with udata := L.udata.set id ⟨"Font", none⟩,
                          calls := L.calls ++ [.delete f.this] }⟩

/-- The property `switch` of `meta_index` (lines 117-167) on the hash of the key. -/
def meta_index_switch {ν : Type} (E : Engine ν) (f : CglFont ν) (key : String) :
    List (LuaValue ν) :=
  let h := E.hashString key
  if h = E.hashString "size" then [.number (E.int2number f.fontSize)]
  else if h = E.hashString "path" then [.string f.fontPath]
  else if h = E.hashString "height" then [.number f.lineHeight]
  else if h = E.hashString "lineheight" then [.number f.lineHeight]
  else if h = E.hashString "descender" then [.number f.descender]
  else if h = E.hashString "outlinewidth" then [.number (E.int2number f.outlineWidth)]
  else if h = E.hashString "outlineweight" then [.number f.outlineWeight]
  else if h = E.hashString "family" then [.string f.family]
  else if h = E.hashString "style" then [.string f.style]
  else if h = E.hashString "texturewidth" then [.number (E.int2number f.textureWidth)]
  else if h = E.hashString "textureheight" then [.number (E.int2number f.textureHeight)]
  else []

/-- The metamethod `meta_index` (lines 100-171): the metatable entry for the key if there
is one; otherwise, for a live handle and a key that is a string (`lua_israwstring`: the
type tag is `LUA_TSTRING`, numbers do not count), the property `switch` on
`hashString(lua_tostring(L, 2))`; otherwise nothing. -/
def meta_index {ν : Type} (E : Engine ν) (L : lua_State ν) (args : List (LuaValue ν)) :
    Outcome ν :=
  match lua_rawget CreateMetatable (index args 2) with
  | some v => ⟨.ok [v], L⟩
  | none =>
    match tofont L args 1 with
    | .error e => ⟨.error e, L⟩
    | .ok f =>
      match index args 2 with
      | some (.string key) => ⟨.ok (meta_index_switch E f (cstr key)), L⟩
      | _ => ⟨.ok [], L⟩

/-- The four arguments of `LoadFont` (line 179).  They are the arguments of one call
of the loader, so the four checks run in the order the compiled code evaluates call
arguments; when several arguments are bad the error raised is that of the check that
runs first. -/
def LoadFont_args {ν : Type} (E : Engine ν) (args : List (LuaValue ν)) :
    Except LuaError (String × Int × Int × ν) :=
  if E.argsRightToLeft then do
    let outlineweight ← luaL_optfloat E args 4 (E.int2number 15)
    let outlinewidth ← luaL_optint E args 3 2
    let size ← luaL_optint E args 2 14
    let path ← luaL_checkstring E args 1
    pure (path, size, outlinewidth, outlineweight)
  else do
    let path ← luaL_checkstring E args 1
    let size ← luaL_optint E args 2 14
    let outlinewidth ← luaL_optint E args 3 2
    let outlineweight ← luaL_optfloat E args 4 (E.int2number 15)
    pure (path, size, outlinewidth, outlineweight)

/-- The callout `LoadFont` (lines 177-189): nothing is returned when the font does not
load; otherwise a new userdata holding the font, with the "Font" metatable.  The path
reaches the loader as a `const char*`. -/
def LoadFont {ν : Type} (E : Engine ν) (L : lua_State ν) (args : List (LuaValue ν)) :
    Outcome ν :=
  match LoadFont_args E args with
  | .error e => ⟨.error e, L⟩
  | .ok (path, size, outlinewidth, outlineweight) =>
    let calls := L.calls ++ [.LoadFont (cstr path) size outlinewidth outlineweight]
    match CglFont.LoadFont E L.nextFont (cstr path) size outlinewidth outlineweight with
    | none => ⟨.ok [], { L with calls := calls }⟩
    | some f =>
      ⟨.ok [.userdata L.udata.length],
       { L with udata := L.udata ++ [⟨"Font", some f⟩],
                nextFont := L.nextFont + 1, calls := calls }⟩

/-- The callout `DeleteFont` (lines 192-195). -/
def DeleteFont {ν : Type} (L : lua_State ν) (args : List (LuaValue ν)) : Outcome ν :=
  meta_gc L args

/-- The checks of `Print` before it draws (lines 203-212): drawing enabled, the font,
the text, x, y, and the size with the font size as its default. -/
def Print_args {ν : Type} (E : Engine ν) (L : lua_State ν) (args : List (LuaValue ν)) :
    Except LuaError (CglFont ν × String × ν × ν × ν) := do
  CheckDrawingEnabled L "Print"
  let f ← tofont L args 1
  let text ← luaL_checkstring E args 2
  let x ← luaL_checkfloat E args 3
  let y ← luaL_checkfloat E args 4
  let size ← luaL_optfloat E args 5 (E.int2number f.fontSize)
  pure (f, text, x, y, size)

/-- The method `Print` (lines 201-244): the options are parsed from argument 6 when there
are at least six arguments and it is a string or a number, and `glPrint` is called. -/
def Print {ν : Type} (E : Engine ν) (L : lua_State ν) (args : List (LuaValue ν)) : Outcome ν :=
  match Print_args E L args with
  | .error e => ⟨.error e, L⟩
  | .ok (f, text, x, y, size) =>
    let options :=
      if args.length ≥ 6 ∧ lua_isstring E (index args 6) then
        Print_options E.flags ((lua_tostring E (index args 6)).getD "")
      else E.flags.FONT_NEAREST
    ⟨.ok [], { L with calls := L.calls ++ [.glPrint f.this x y size options text] }⟩

/-- The method `Begin` (lines 250-256). -/
def Begin {ν : Type} (L : lua_State ν) (args : List (LuaValue ν)) : Outcome ν :=
  match (do CheckDrawingEnabled L "Begin"; tofont L args 1) with
  | .error e => ⟨.error e, L⟩
  | .ok f => ⟨.ok [], { L with calls := L.calls ++ [.Begin f.this] }⟩

/-- The method `End` (lines 259-265). -/
def End {ν : Type} (L : lua_State ν) (args : List (LuaValue ν)) : Outcome ν :=
  match (do CheckDrawingEnabled L "End"; tofont L args 1) with
  | .error e => ⟨.error e, L⟩
  | .ok f => ⟨.ok [], { L with calls := L.calls ++ [.End f.this] }⟩

/-- The checks of `WrapText` (lines 273-277). -/
def WrapText_args {ν : Type} (E : Engine ν) (L : lua_State ν) (args : List (LuaValue ν)) :
    Except LuaError (CglFont ν × String × ν × ν × ν) := do
  let f ← tofont L args 1
  let text ← luaL_checkstring E args 2
  let maxWidth ← luaL_checkfloat E args 3
  let maxHeight ← luaL_optfloat E args 4 (E.int2number 1000000000)
  let size ← luaL_optfloat E args 5 (E.int2number f.fontSize)
  pure (f, text, maxWidth, maxHeight, size)

/-- The method `WrapText` (lines 271-284): the wrapped text and the line count. -/
def WrapText {ν : Type} (E : Engine ν) (L : lua_State ν) (args : List (LuaValue ν)) :
    Outcome ν :=
  match WrapText_args E L args with
  | .error e => ⟨.error e, L⟩
  | .ok (f, text, maxWidth, maxHeight, size) =>
    let r := E.WrapInPlace f text size maxWidth maxHeight
    ⟨.ok [.string r.1, .number (E.int2number r.2)], L⟩

/-- The method `GetTextWidth` (lines 289-295). -/
def GetTextWidth {ν : Type} (E : Engine ν) (L : lua_State ν) (args : List (LuaValue ν)) :
    Outcome ν :=
  match (do let f ← tofont L args 1; let text ← luaL_checkstring E args 2; pure (f, text)) with
  | .error e => ⟨.error e, L⟩
  | .ok (f, text) => ⟨.ok [.number (E.GetTextWidth f text)], L⟩

/-- The method `GetTextHeight` (lines 298-309): height, descender and line count. -/
def GetTextHeight {ν : Type} (E : Engine ν) (L : lua_State ν) (args : List (LuaValue ν)) :
    Outcome ν :=
  match (do let f ← tofont L args 1; let text ← luaL_checkstring E args 2; pure (f, text)) with
  | .error e => ⟨.error e, L⟩
  | .ok (f, text) =>
    let r := E.GetTextHeight f text
    ⟨.ok [.number r.1, .number r.2.1, .number (E.int2number r.2.2)], L⟩

/-- The text the two colour setters share (lines 319-342 and 353-376), from the argument
count to the colour handed to the font.  `msg` is the message of the setter and `isnil`
the test of its last branch (`lua_isnil` in `SetTextColor`, `lua_isnoneornil` in
`SetOutlineColor`). -/
def SetColor_args {ν : Type} (E : Engine ν) (msg : String)
    (isnil : Option (LuaValue ν) → Bool) (args : List (LuaValue ν)) :
    Except LuaError (float4 ν) :=
  if args.length < 2 then .error (.error msg)
  else
    let color := E.float4_default
    match index args 2 with
    | some (.table t) =>
      let read := ParseFloatArray E t 4
      let color := color.store read
      if read.length < 3 then .error (.error msg)
      else if read.length = 3 then .ok { color with w := E.int2number 1 }
      else .ok color
    | _ =>
      if args.length ≥ 4 then do
        let x ← luaL_checkfloat E args 2
        let y ← luaL_checkfloat E args 3
        let z ← luaL_checkfloat E args 4
        let w ← luaL_optfloat E args 5 (E.int2number 1)
        pure { x := x, y := y, z := z, w := w }
      else if !isnil (index args 2) then .error (.error msg)
      else .ok color

/-- The method `SetTextColor` (lines 315-346). -/
def SetTextColor {ν : Type} (E : Engine ν) (L : lua_State ν) (args : List (LuaValue ν)) :
    Outcome ν :=
  match tofont L args 1 with
  | .error e => ⟨.error e, L⟩
  | .ok f =>
    match SetColor_args E "Incorrect arguments to font:SetTextColor([\"textColor\"])"
        lua_isnil args with
    | .error e => ⟨.error e, L⟩
    | .ok color => ⟨.ok [], { L with calls := L.calls ++ [.SetTextColor f.this color] }⟩

/-- The method `SetOutlineColor` (lines 349-380). -/
def SetOutlineColor {ν : Type} (E : Engine ν) (L : lua_State ν) (args : List (LuaValue ν)) :
    Outcome ν :=
  match tofont L args 1 with
  | .error e => ⟨.error e, L⟩
  | .ok f =>
    match SetColor_args E "Incorrect arguments to font:SetOutlineColor([\"outlineColor\"])"
        lua_isnoneornil args with
    | .error e => ⟨.error e, L⟩
    | .ok color => ⟨.ok [], { L with calls := L.calls ++ [.SetOutlineColor f.this color] }⟩

/-- The method `SetAutoOutlineColor` (lines 383-388). -/
def SetAutoOutlineColor {ν : Type} (L : lua_State ν) (args : List (LuaValue ν)) : Outcome ν :=
  match (do let f ← tofont L args 1; let b ← luaL_checkboolean args 2; pure (f, b)) with
  | .error e => ⟨.error e, L⟩
  | .ok (f, b) => ⟨.ok [], { L with calls := L.calls ++ [.SetAutoOutlineColor f.this b] }⟩

/-- The method `BindTexture` (lines 394-404). -/
def BindTexture {ν : Type} (L : lua_State ν) (args : List (LuaValue ν)) : Outcome ν :=
  match (do CheckDrawingEnabled L "BindTexture"; tofont L args 1) with
  | .error e => ⟨.error e, L⟩
  | .ok f => ⟨.ok [], { L with calls := L.calls ++ [.glBindTexture f.texture, .glEnable] }⟩

/-- The ten methods registered in the "Font" metatable. -/
inductive Method where
  | Print | Begin | End | WrapText | GetTextWidth | GetTextHeight
  | SetTextColor | SetOutlineColor | SetAutoOutlineColor | BindTexture
  deriving DecidableEq, Repr

/-- A call of a method: the C function the metatable holds under its name. -/
def Method.call {ν : Type} (E : Engine ν) (m : Method) (L : lua_State ν)
    (args : List (LuaValue ν)) : Outcome ν :=
  match m with
  | .Print => LuaFonts.Print E L args
  | .Begin => LuaFonts.Begin L args
  | .End => LuaFonts.End L args
  | .WrapText => LuaFonts.WrapText E L args
  | .GetTextWidth => LuaFonts.GetTextWidth E L args
  | .GetTextHeight => LuaFonts.GetTextHeight E L args
  | .SetTextColor => LuaFonts.SetTextColor E L args
  | .SetOutlineColor => LuaFonts.SetOutlineColor E L args
  | .SetAutoOutlineColor => LuaFonts.SetAutoOutlineColor L args
  | .BindTexture => LuaFonts.BindTexture L args

/-- Whether the method starts with `CheckDrawingEnabled`. -/
def Method.draws : Method → Bool
  | .Print | .Begin | .End | .BindTexture => true
  | _ => false

/-- The name of the method, as `__FUNCTION__` gives it. -/
def Method.name : Method → String
  | .Print => "Print"
  | .Begin => "Begin"
  | .End => "End"
  | .WrapText => "WrapText"
  | .GetTextWidth => "GetTextWidth"
  | .GetTextHeight => "GetTextHeight"
  | .SetTextColor => "SetTextColor"
  | .SetOutlineColor => "SetOutlineColor"
  | .SetAutoOutlineColor => "SetAutoOutlineColor"
  | .BindTexture => "BindTexture"

end LuaFonts

/-! ## `LuaFunctions.cpp` -/

namespace luafunctions

/-- The engine struct `Command`: a command identifier and its numeric parameters. -/
structure Command (ν : Type) where
  id : Int
  params : List ν

/-- The wrapper `CUnit_pointer`: a unit pointer that may be null (`none`). -/
structure CUnit_pointer where
  unit : Option Nat
  deriving DecidableEq, Repr

/-- The global state the forwarders touch: `game->gameOver`, the end-of-game boxes
created, the commands handed to command AIs (unit, command; oldest first), and the rest
of the simulation. -/
structure Globals (ν σ : Type) where
  gameOver : Bool
  endGameBoxes : Nat
  given : List (Nat × Command ν)
  sim : σ

/-- The simulation subsystems the forwarders call, which are defined elsewhere. -/
structure Sim (ν σ : Type) where
  /-- The method `CCommandAI::GiveCommand` of the command AI of a unit: its effect on the
  simulation and on the command passed by reference. -/
  GiveCommand : Nat → Command ν → σ → σ × Command ν
  /-- The method `unitLoader.LoadUnit(name, pos, team, build)`: the unit created, if any. -/
  LoadUnit : String → ν × ν × ν → Int → Bool → σ → Option Nat × σ
  /-- The method `qf->GetUnits(pos, radius)`. -/
  GetUnits : σ → ν × ν × ν → ν → List Nat

/-- The forwarder `EndGame` (lines 24-28). -/
def EndGame {ν σ : Type} (g : Globals ν σ) : Globals ν σ :=
  { g with endGameBoxes := g.endGameBoxes + 1, gameOver := true }

/-- The forwarder `UnitGiveCommand` (lines 30-36): nothing when the unit pointer is null,
else `GiveCommand` on the command AI of the unit. -/
def UnitGiveCommand {ν σ : Type} (S : Sim ν σ) (u : CUnit_pointer) (c : Command ν)
    (g : Globals ν σ) : Globals ν σ × Command ν :=
  match u.unit with
  | none => (g, c)
  | some unit =>
    let r := S.GiveCommand unit c g.sim
    ({ g with given := g.given ++ [(unit, c)], sim := r.1 }, r.2)

/-- The forwarder `CommandAddParam` (lines 38-41). -/
def CommandAddParam {ν : Type} (c : Command ν) (p : ν) : Command ν :=
  { c with params := c.params ++ [p] }

/-- The forwarder `UnitLoaderLoadUnit` (lines 43-47): a new wrapper around whatever the
loader returned. -/
def UnitLoaderLoadUnit {ν σ : Type} (S : Sim ν σ) (name : String) (pos : ν × ν × ν)
    (team : Int) (buil : Bool) (g : Globals ν σ) : CUnit_pointer × Globals ν σ :=
  let r := S.LoadUnit name pos team buil g.sim
  (⟨r.1⟩, { g with sim := r.2 })

/-- The forwarder `GetNumUnitsAt` (lines 53-57). -/
def GetNumUnitsAt {ν σ : Type} (S : Sim ν σ) (g : Globals ν σ) (pos : ν × ν × ν)
    (radius : ν) : Nat :=
  (S.GetUnits g.sim pos radius).length

end luafunctions

/-! ## A concrete engine, for evaluation -/

/-- The DJB2 string hash on 32 bits, `hash = hash + (hash << 5) + c` from 5381: the
`hashString` of the concrete engine below. -/
def djb2 (s : String) : Nat :=
  s.data.foldl (fun hash c => (hash + hash * 32 + c.toNat) % 2 ^ 32) 5381

/-- A face for every font file with a non-empty path. -/
def sampleFace (path : String) : Option (FontFace Rat) :=
  if path = "" then none
  else some { lineHeight := 1, descender := 0, family := "Sans", style := "Regular",
              textureWidth := 512, textureHeight := 512, texture := 1 }

/-- The value of a 32-bit `int` an integer converts to: reduced modulo 2^32 into
-2^31 .. 2^31 - 1. -/
def wrapInt (i : Int) : Int :=
  (i + 2 ^ 31) % 2 ^ 32 - 2 ^ 31

/-- An engine over the rationals: conversion to `int` truncates toward zero and wraps to
32 bits, the hash is DJB2, an uninitialised `float4` is zero, call arguments are
evaluated right to left, text is one line. -/
def sampleEngine : Engine Rat where
  lua_number2int := fun q => wrapInt (Int.tdiv q.num q.den)
  int2number := fun i => Rat.ofInt i
  lua_str2number := fun s => (String.toInt? s).map Rat.ofInt
  lua_number2str := fun q => toString q.num ++ "/" ++ toString q.den
  hashString := djb2
  hashString_labels := by decide
  float4_default := ⟨0, 0, 0, 0⟩
  argsRightToLeft := true
  face := sampleFace
  WrapInPlace := fun _ text _ _ _ => (text, 1)
  GetTextWidth := fun _ text => Rat.ofInt text.length
  GetTextHeight := fun _ _ => (1, 0, 1)
  flags := springFontConsts

/-- The font `LoadFont("a.ttf", 12)` creates at address 0. -/
def sampleFont : CglFont Rat :=
  { this := 0, fontPath := "a.ttf", fontSize := 12, outlineWidth := 2, outlineWeight := 15,
    lineHeight := 1, descender := 0, family := "Sans", style := "Regular",
    textureWidth := 512, textureHeight := 512, texture := 1 }

/-- A state with one live font handle, userdata 0, outside a draw call-in. -/
def liveState : lua_State Rat :=
  { drawingEnabled := false, udata := [⟨"Font", some sampleFont⟩], nextFont := 1, calls := [] }

/-- The state `liveState` after `DeleteFont` on its handle. -/
def releasedState : lua_State Rat :=
  (LuaFonts.DeleteFont liveState [.userdata 0]).L

/-- The option string with every character the `switch` has no case for removed, as
the specification puts it. -/
def removeUnrecognized (s : String) : String :=
  ⟨s.data.filter recognized⟩

/-- The option string with every character removed that the `switch` has no case for
and that is not NUL. -/
def removeIgnored (s : String) : String :=
  ⟨s.data.filter (fun c => recognized c || c == Char.ofNat 0)⟩

/-- One release of a font handle: the callout `DeleteFont` or the finalizer `__gc`. -/
inductive Release where
  | DeleteFont
  | meta_gc
  deriving DecidableEq, Repr

/-- The call of a release on the handle in `args`. -/
def Release.call {ν : Type} (r : Release) (L : lua_State ν) (args : List (LuaValue ν)) :
    Outcome ν :=
  match r with
  | .DeleteFont => LuaFonts.DeleteFont L args
  | .meta_gc => LuaFonts.meta_gc L args

/-- A sequence of releases with the same arguments, one after the other: what each call
returned, and the state after the last. -/
def releaseAll {ν : Type} :
    List Release → lua_State ν → List (LuaValue ν) →
      List (Except LuaError (List (LuaValue ν))) × lua_State ν
  | [], L, _ => ([], L)
  | r :: rs, L, args =>
    let o := r.call L args
    let rest := releaseAll rs o.L args
    (o.ret :: rest.1, rest.2)

/-- Whether a Lua value has the type number. -/
def LuaValue.isNumber {ν : Type} : LuaValue ν → Bool
  | .number _ => true
  | _ => false

/-- The colour argument lists (the arguments after the handle) the specification calls
well formed: a numeric sequence of 3 or 4 elements, or 3 or 4 discrete numbers. -/
def wellFormedColorArgs {ν : Type} (rest : List (LuaValue ν)) : Bool :=
  match rest with
  | [.table t] => (t.length == 3 || t.length == 4) && t.all LuaValue.isNumber
  | _ => (rest.length == 3 || rest.length == 4) && rest.all LuaValue.isNumber

/-- The C API `lua_isnumber`: a number, or a string that denotes one. -/
def lua_isnumber {ν : Type} (E : Engine ν) (v : Option (LuaValue ν)) : Bool :=
  (lua_tonumber E v).isSome

/-- The argument lists (handle included) the colour setters reject: nothing after the
handle; a table whose numeric sequence has fewer than 3 elements; fewer than 3
arguments after the handle, the first neither a table nor nil; at least 3 arguments
after the handle, the first not a table, and one of arguments 2 to 4 not a number or
argument 5 present, not nil and not a number. -/
def rejectedColorArgs {ν : Type} (E : Engine ν) (args : List (LuaValue ν)) : Bool :=
  decide (args.length < 2)
  || (match index args 2 with
      | some (.table t) => decide ((ParseFloatArray E t 4).length < 3)
      | _ => false)
  || (!lua_istable (index args 2) && decide (args.length < 4) && !lua_isnil (index args 2))
  || (!lua_istable (index args 2) && decide (4 ≤ args.length)
      && (!lua_isnumber E (index args 2) || !lua_isnumber E (index args 3)
          || !lua_isnumber E (index args 4)
          || (!lua_isnoneornil (index args 5) && !lua_isnumber E (index args 5))))

/-- The errors a colour setter raises for its arguments: its own message, or the type
error of `luaL_checkfloat`. -/
def argumentError (msg : String) (e : LuaError) : Prop :=
  e = .error msg ∨ ∃ narg, e = .typerror narg "number"

/-- The keys of the "Font" metatable. -/
def methodTableKeys : List String :=
  (LuaFonts.CreateMetatable (ν := Unit)).map Prod.fst

/-- The arguments of a `LoadFont` call with a path and an optional numeric size (further
arguments may follow a size). -/
def loadArgs {ν : Type} (path : String) (size : Option ν) (more : List (LuaValue ν)) :
    List (LuaValue ν) :=
  match size with
  | none => [.string path]
  | some s => .string path :: .number s :: more

/-- The size `LoadFont` hands to the loader for an optional numeric size argument. -/
def loadedSize {ν : Type} (E : Engine ν) (size : Option ν) : Int :=
  match size with
  | none => 14
  | some s => E.lua_number2int s

/-- A state without handles. -/
def emptyState : lua_State Rat :=
  { drawingEnabled := false, udata := [], nextFont := 0, calls := [] }

/-- The rational 25/2, that is 12.5. -/
def twelveAndHalf : Rat :=
  ⟨25, 2, by decide, by decide⟩

/-- The key s,i,z,e,NUL,x: a string of six characters. -/
def sizeNulKey : String :=
  String.mk ['s', 'i', 'z', 'e', Char.ofNat 0, 'x']

/-! ## The option string of `Print` (C5, C6) -/

theorem Print_switch_of_not_recognized (K : FontConsts) (options : Nat) (c : Char)
    (h : recognized c = false) : Print_switch K options c = options := by
  simp only [recognized, List.mem_cons, List.mem_singleton, decide_eq_false_iff_not, not_or,
    List.not_mem_nil, or_false] at h
  obtain ⟨h1, h2, h3, h4, h5, h6, h7, h8, h9, h10, h11, h12⟩ := h
  simp [Print_switch, h1, h2, h3, h4, h5, h6, h7, h8, h9, h10, h11, h12]

theorem Print_while_filter (K : FontConsts) (cs : List Char) (options : Nat) :
    Print_while K cs options
      = Print_while K (cs.filter (fun c => recognized c || c == Char.ofNat 0)) options := by
  induction cs generalizing options with
  | nil => rfl
  | cons c cs ih =>
    by_cases h0 : c = Char.ofNat 0
    · subst h0
      simp [Print_while]
    · cases hr : recognized c with
      | true => simp [Print_while, h0, hr, ih (Print_switch K options c)]
      | false =>
        simp [Print_while, h0, hr, Print_switch_of_not_recognized K options c hr, ih options]

theorem Print_while_of_not_recognized (K : FontConsts) (cs : List Char) (options : Nat)
    (h : ∀ c ∈ cs, recognized c = false) : Print_while K cs options = options := by
  induction cs with
  | nil => rfl
  | cons c cs ih =>
    have hc : recognized c = false := h c (List.mem_cons_self c cs)
    have hcs : ∀ d ∈ cs, recognized d = false := fun d hd => h d (List.mem_cons_of_mem c hd)
    by_cases h0 : c = Char.ofNat 0
    · simp [Print_while, h0]
    · simp [Print_while, h0, Print_switch_of_not_recognized K options c hc, ih hcs]

theorem filter_ignored_of_no_nul (cs : List Char) (h : Char.ofNat 0 ∉ cs) :
    cs.filter (fun c => recognized c || c == Char.ofNat 0) = cs.filter recognized := by
  apply List.filter_congr
  intro c hc
  have hne : c ≠ Char.ofNat 0 := fun e => h (e ▸ hc)
  simp [hne]

theorem Print_while_nn (K : FontConsts) (ps qs : List Char) (options : Nat) :
    Print_while K (ps ++ 'n' :: 'n' :: qs) options = Print_while K (ps ++ qs) options := by
  induction ps generalizing options with
  | nil =>
    have hn : Print_switch K (Print_switch K options 'n') 'n' = options := by
      simp [Print_switch, Nat.xor_assoc]
    have h0 : ('n' : Char) ≠ Char.ofNat 0 := by decide
    simp [Print_while, h0, hn]
  | cons c cs ih =>
    by_cases h0 : c = Char.ofNat 0
    · simp [Print_while, h0]
    · simp [Print_while, h0, ih]

/-- C5, as stated, fails: a NUL is an unrecognized character, and the option string
NUL,c gives `FONT_NEAREST` alone (the loop stops at the NUL) while the string with the
NUL removed, "c", gives `FONT_NEAREST | FONT_CENTER`. -/
theorem C5_counterexample :
    recognized (Char.ofNat 0) = false
    ∧ removeUnrecognized (String.mk [Char.ofNat 0, 'c']) = "c"
    ∧ Print_options springFontConsts (String.mk [Char.ofNat 0, 'c']) = 8192
    ∧ Print_options springFontConsts (removeUnrecognized (String.mk [Char.ofNat 0, 'c'])) = 8196 := by
  decide

/-- C5, amended: for every option string, the flags `Print` computes from it equal the
flags computed from the string with every unrecognized character other than NUL
removed, hence, for a string without a NUL, the flags of the string with every
unrecognized character removed; and a string made only of unrecognized characters gives
the initial flags, `FONT_NEAREST` alone. -/
theorem C5_unrecognized_ignored (K : FontConsts) (s : String) :
    Print_options K s = Print_options K (removeIgnored s)
    ∧ (Char.ofNat 0 ∉ s.data → Print_options K s = Print_options K (removeUnrecognized s))
    ∧ ((∀ c ∈ s.data, recognized c = false) → Print_options K s = K.FONT_NEAREST) :=
  ⟨Print_while_filter K s.data K.FONT_NEAREST,
   fun h => by
     rw [Print_options, Print_while_filter, Print_options, removeUnrecognized,
       filter_ignored_of_no_nul s.data h],
   fun h => Print_while_of_not_recognized K s.data K.FONT_NEAREST h⟩

/-- C5 at concrete inputs: "zc!" gives the flags of "c", and "z!" gives `FONT_NEAREST`. -/
theorem C5_unrecognized_ignored_witness :
    Print_options springFontConsts "zc!" = Print_options springFontConsts "c"
    ∧ Print_options springFontConsts "z!" = springFontConsts.FONT_NEAREST :=
  ⟨(C5_unrecognized_ignored springFontConsts "zc!").2.1 (by decide),
   (C5_unrecognized_ignored springFontConsts "z!").2.2 (by decide)⟩

theorem Print_switch_n (K : FontConsts) (options : Nat) :
    Print_switch K options 'n' = options ^^^ K.FONT_NEAREST := by
  simp [Print_switch]

theorem Print_while_append_of_no_nul (K : FontConsts) (ps qs : List Char) (options : Nat)
    (h : Char.ofNat 0 ∉ ps) :
    Print_while K (ps ++ qs) options = Print_while K qs (Print_while K ps options) := by
  induction ps generalizing options with
  | nil => rfl
  | cons c cs ih =>
    have h0 : c ≠ Char.ofNat 0 := fun e => h (e ▸ List.mem_cons_self c cs)
    have hcs : Char.ofNat 0 ∉ cs := fun hm => h (List.mem_cons_of_mem c hm)
    simp [Print_while, h0, ih _ hcs]

/-- C6: each n flips the `FONT_NEAREST` bit and nothing else: the case of the switch is
`options ^ FONT_NEAREST`, so an n at the end of an option string without a NUL turns the
flags of the string into those flags xor `FONT_NEAREST`; and toggling n twice is the
identity on the drawing flags: for all strings p and q the flags of p ++ "nn" ++ q equal
the flags of p ++ q. -/
theorem C6_double_n_identity (K : FontConsts) (p q : String) :
    (∀ options, Print_switch K options 'n' = options ^^^ K.FONT_NEAREST)
    ∧ (Char.ofNat 0 ∉ p.data →
        Print_options K (p ++ "n") = Print_options K p ^^^ K.FONT_NEAREST)
    ∧ Print_options K (p ++ "nn" ++ q) = Print_options K (p ++ q) := by
  refine ⟨Print_switch_n K, ?_, ?_⟩
  · intro h
    have h0 : ('n' : Char) ≠ Char.ofNat 0 := by decide
    have ha := Print_while_append_of_no_nul K p.data ['n'] K.FONT_NEAREST h
    simpa [Print_options, String.data_append, Print_while, h0, Print_switch_n] using ha
  · have h := Print_while_nn K p.data q.data K.FONT_NEAREST
    simpa [Print_options, String.data_append, List.append_assoc] using h

/-- C6 at concrete inputs: "cn" gives the flags of "c" with `FONT_NEAREST` flipped off,
"n" after that flips it on again, and "cnnv" gives the flags of "cv". -/
theorem C6_double_n_identity_witness :
    Print_options springFontConsts "c" = 8196
    ∧ Print_options springFontConsts ("c" ++ "n") = 4
    ∧ Print_options springFontConsts ("c" ++ "nn" ++ "v")
        = Print_options springFontConsts ("c" ++ "v") :=
  ⟨by decide,
   ((C6_double_n_identity springFontConsts "c" "v").2.1 (by decide)).trans (by decide),
   (C6_double_n_identity springFontConsts "c" "v").2.2⟩

/-! ## `UnitGiveCommand` on a null unit (C8) -/

/-- C8: `UnitGiveCommand` on a unit reference whose unit pointer is null returns without
an effect: the global state (game-over flag, commands given, simulation) and the
command are what they were. -/
theorem C8_null_unit_noop {ν σ : Type} (S : luafunctions.Sim ν σ)
    (c : luafunctions.Command ν) (g : luafunctions.Globals ν σ) :
    luafunctions.UnitGiveCommand S ⟨none⟩ c g = (g, c) :=
  rfl

theorem UnitGiveCommand_of_unit {ν σ : Type} (S : luafunctions.Sim ν σ) (unit : Nat)
    (c : luafunctions.Command ν) (g : luafunctions.Globals ν σ) :
    (luafunctions.UnitGiveCommand S ⟨some unit⟩ c g).1.given = g.given ++ [(unit, c)] :=
  rfl

/-! ## Handles: live, released -/

open LuaFonts

theorem set_of_getElem? {α : Type} (l : List α) (i : Nat) (a : α) (h : l[i]? = some a) :
    l.set i a = l := by
  induction l generalizing i with
  | nil => rfl
  | cons b l ih =>
    cases i with
    | zero => simp at h; simp [h]
    | succ i => simp at h; simp [ih i h]

theorem getElem?_set_of_getElem? {α : Type} (l : List α) (i : Nat) (a b : α)
    (h : l[i]? = some a) : (l.set i b)[i]? = some b := by
  induction l generalizing i with
  | nil => simp at h
  | cons c l ih =>
    cases i with
    | zero => simp
    | succ i => simp at h; simpa using ih i h

theorem tofont_of_live {ν : Type} (L : lua_State ν) (args : List (LuaValue ν)) (id : Nat)
    (f : CglFont ν) (harg : index args 1 = some (.userdata id))
    (hlive : L.udata[id]? = some ⟨"Font", some f⟩) : tofont L args 1 = .ok f := by
  simp [tofont, luaL_checkudata, harg, hlive]

theorem tofont_of_released {ν : Type} (L : lua_State ν) (args : List (LuaValue ν)) (id : Nat)
    (harg : index args 1 = some (.userdata id))
    (hrel : L.udata[id]? = some ⟨"Font", none⟩) :
    tofont L args 1 = .error (.error "attempt to use a deleted font") := by
  simp [tofont, luaL_checkudata, harg, hrel]

theorem meta_gc_of_released {ν : Type} (L : lua_State ν) (args : List (LuaValue ν)) (id : Nat)
    (harg : index args 1 = some (.userdata id))
    (hrel : L.udata[id]? = some ⟨"Font", none⟩) : meta_gc L args = ⟨.ok [], L⟩ := by
  simp [meta_gc, luaL_checkudata, harg, hrel, lua_isnil, set_of_getElem? _ _ _ hrel]

theorem meta_gc_of_live {ν : Type} (L : lua_State ν) (args : List (LuaValue ν)) (id : Nat)
    (f : CglFont ν) (harg : index args 1 = some (.userdata id))
    (hlive : L.udata[id]? = some ⟨"Font", some f⟩) :
    meta_gc L args = ⟨.ok [], { L with udata := L.udata.set id ⟨"Font", none⟩,
                                       calls := L.calls ++ [.delete f.this] }⟩ := by
  simp [meta_gc, luaL_checkudata, harg, hlive, lua_isnil]

/-- C1, amended: on a released font handle every font method fails with an error and
leaves the state as it was, so the native font is not reached, whatever the further
arguments and the drawing state.  The error is the deleted-font error, except that
`Print`, `Begin`, `End` and `BindTexture` called while drawing is disabled fail with the
drawing-context error of `CheckDrawingEnabled`, which they check first. -/
theorem C1_released_handle_fails {ν : Type} (E : Engine ν) (L : lua_State ν)
    (args : List (LuaValue ν)) (id : Nat) (m : Method)
    (harg : index args 1 = some (.userdata id))
    (hrel : L.udata[id]? = some ⟨"Font", none⟩) :
    (m.call E L args).L = L
    ∧ (m.call E L args).ret =
        .error (.error (if m.draws && !L.drawingEnabled
          then m.name ++ "(): OpenGL calls can only be used in Draw() "
                      ++ "call-ins, or while creating display lists"
          else "attempt to use a deleted font")) := by
  have ht := tofont_of_released L args id harg hrel
  cases m <;> cases hd : L.drawingEnabled <;>
    simp [Method.call, Method.draws, Method.name, LuaFonts.Print, Print_args, LuaFonts.Begin,
      LuaFonts.End, LuaFonts.WrapText, WrapText_args, LuaFonts.GetTextWidth,
      LuaFonts.GetTextHeight, LuaFonts.SetTextColor, LuaFonts.SetOutlineColor,
      LuaFonts.SetAutoOutlineColor, LuaFonts.BindTexture, CheckDrawingEnabled, ht, hd,
      bind, Except.bind]

theorem releaseAll_of_released {ν : Type} (rs : List Release) (L : lua_State ν)
    (args : List (LuaValue ν)) (id : Nat) (harg : index args 1 = some (.userdata id))
    (hrel : L.udata[id]? = some ⟨"Font", none⟩) :
    releaseAll rs L args = (List.replicate rs.length (.ok []), L) := by
  induction rs with
  | nil => rfl
  | cons r rs ih =>
    have h : r.call L args = ⟨.ok [], L⟩ := by
      cases r <;> simp [Release.call, DeleteFont, meta_gc_of_released L args id harg hrel]
    simp [releaseAll, h, ih, List.replicate_succ]

/-- C10: releasing a font handle is idempotent and frees the native font once.  For a
live handle and any non-empty sequence of `DeleteFont` / `__gc` calls on it, every call
returns without an error, the state after the sequence is the state after one release
(the slot is null and exactly one `delete` of the native font was logged, by the first
call), the slot of the handle is null in it; and `__gc` with a nil argument does
nothing. -/
theorem C10_release_once {ν : Type} (L : lua_State ν) (args : List (LuaValue ν)) (id : Nat)
    (f : CglFont ν) (r : Release) (rs : List Release)
    (harg : index args 1 = some (.userdata id))
    (hlive : L.udata[id]? = some ⟨"Font", some f⟩) :
    releaseAll (r :: rs) L args
      = (List.replicate (rs.length + 1) (.ok []),
         { L with udata := L.udata.set id ⟨"Font", none⟩,
                  calls := L.calls ++ [.delete f.this] })
    ∧ (L.udata.set id ⟨"Font", none⟩)[id]? = some ⟨"Font", none⟩
    ∧ (∀ (L' : lua_State ν) (rest : List (LuaValue ν)),
        meta_gc L' (.nil :: rest) = ⟨.ok [], L'⟩) := by
  have hset := getElem?_set_of_getElem? L.udata id _ (⟨"Font", none⟩ : UData ν) hlive
  refine ⟨?_, hset, ?_⟩
  · have h : r.call L args
        = ⟨.ok [], { L with udata := L.udata.set id ⟨"Font", none⟩,
                            calls := L.calls ++ [.delete f.this] }⟩ := by
      cases r <;> simp [Release.call, DeleteFont, meta_gc_of_live L args id f harg hlive]
    have hrest := releaseAll_of_released rs
      { L with udata := L.udata.set id ⟨"Font", none⟩, calls := L.calls ++ [.delete f.this] }
      args id harg hset
    simp [releaseAll, h, hrest, List.replicate_succ]
  · intro L' rest
    simp [meta_gc, index, lua_isnil]

/-- C10 at a concrete input: `DeleteFont`, `__gc`, `DeleteFont` on the live handle of
`liveState`. -/
theorem C10_release_once_witness :
    releaseAll [.DeleteFont, .meta_gc, .DeleteFont] liveState [.userdata 0]
      = ([.ok [], .ok [], .ok []],
         { liveState with udata := [⟨"Font", none⟩], calls := [.delete 0] }) :=
  (C10_release_once liveState [.userdata 0] 0 sampleFont .DeleteFont [.meta_gc, .DeleteFont]
    rfl rfl).1

/-- C1, as stated, fails: outside a draw call-in, `Begin` on a released handle fails
with the drawing-context error of `CheckDrawingEnabled`, not with the deleted-font error. -/
theorem C1_counterexample :
    releasedState.drawingEnabled = false
    ∧ releasedState.udata[0]? = some ⟨"Font", none⟩
    ∧ (Method.call sampleEngine .Begin releasedState [.userdata 0]).ret
        = .error (.error ("Begin(): OpenGL calls can only be used in Draw() "
                          ++ "call-ins, or while creating display lists"))
    ∧ LuaError.error ("Begin(): OpenGL calls can only be used in Draw() "
                          ++ "call-ins, or while creating display lists")
        ≠ LuaError.error "attempt to use a deleted font" :=
  ⟨rfl, rfl, rfl, by decide⟩

/-- C1 at a concrete input: `SetTextColor` on the released handle of `releasedState`. -/
theorem C1_released_handle_fails_witness :
    (Method.call sampleEngine .SetTextColor releasedState [.userdata 0, .number 1]).L
        = releasedState
    ∧ (Method.call sampleEngine .SetTextColor releasedState [.userdata 0, .number 1]).ret
        = .error (.error "attempt to use a deleted font") :=
  C1_released_handle_fails sampleEngine releasedState [.userdata 0, .number 1] 0 .SetTextColor
    rfl rfl

/-! ## Colour setters (C2, C3, C4) -/

theorem ParseFloatArray_three {ν : Type} (E : Engine ν) (r g b : ν) :
    ParseFloatArray E [.number r, .number g, .number b] 4 = [r, g, b] := by
  simp [ParseFloatArray, lua_tonumber]

/-- C3: on a live handle, a 3-element numeric sequence (r, g, b) as the colour argument
makes `SetTextColor` and `SetOutlineColor` hand the colour (r, g, b, 1.0) to the font. -/
theorem C3_three_element_sequence {ν : Type} (E : Engine ν) (L : lua_State ν) (id : Nat)
    (f : CglFont ν) (r g b : ν) (more : List (LuaValue ν))
    (hlive : L.udata[id]? = some ⟨"Font", some f⟩) :
    SetTextColor E L (.userdata id :: .table [.number r, .number g, .number b] :: more)
      = ⟨.ok [], { L with calls :=
            L.calls ++ [.SetTextColor f.this ⟨r, g, b, E.int2number 1⟩] }⟩
    ∧ SetOutlineColor E L (.userdata id :: .table [.number r, .number g, .number b] :: more)
      = ⟨.ok [], { L with calls :=
            L.calls ++ [.SetOutlineColor f.this ⟨r, g, b, E.int2number 1⟩] }⟩ := by
  have ht := tofont_of_live L
    (.userdata id :: .table [.number r, .number g, .number b] :: more) id f rfl hlive
  constructor <;>
    simp [SetTextColor, SetOutlineColor, ht, SetColor_args, index, ParseFloatArray_three,
      float4.store, show ¬ (more.length + 1 + 1 < 2) by omega]

/-- C3 at a concrete input. -/
theorem C3_three_element_sequence_witness :
    SetTextColor sampleEngine liveState [.userdata 0, .table [.number 1, .number 2, .number 3]]
      = ⟨.ok [], { liveState with calls := [.SetTextColor 0 ⟨1, 2, 3, 1⟩] }⟩ :=
  (C3_three_element_sequence sampleEngine liveState 0 sampleFont 1 2 3 [] rfl).1

/-- C4: on a live handle, 4 discrete numbers r, g, b, a after the handle make
`SetTextColor` and `SetOutlineColor` hand exactly the colour (r, g, b, a) to the font,
without an error. -/
theorem C4_four_numbers {ν : Type} (E : Engine ν) (L : lua_State ν) (id : Nat)
    (f : CglFont ν) (r g b a : ν) (hlive : L.udata[id]? = some ⟨"Font", some f⟩) :
    SetTextColor E L [.userdata id, .number r, .number g, .number b, .number a]
      = ⟨.ok [], { L with calls := L.calls ++ [.SetTextColor f.this ⟨r, g, b, a⟩] }⟩
    ∧ SetOutlineColor E L [.userdata id, .number r, .number g, .number b, .number a]
      = ⟨.ok [], { L with calls := L.calls ++ [.SetOutlineColor f.this ⟨r, g, b, a⟩] }⟩ := by
  have ht := tofont_of_live L
    [.userdata id, .number r, .number g, .number b, .number a] id f rfl hlive
  constructor <;>
    simp [SetTextColor, SetOutlineColor, ht, SetColor_args, index, luaL_checkfloat,
      luaL_optfloat, lua_tonumber, lua_isnoneornil, bind, Except.bind, pure, Except.pure]

/-- C4 at a concrete input. -/
theorem C4_four_numbers_witness :
    SetTextColor sampleEngine liveState [.userdata 0, .number 1, .number 2, .number 3, .number 4]
      = ⟨.ok [], { liveState with calls := [.SetTextColor 0 ⟨1, 2, 3, 4⟩] }⟩ :=
  (C4_four_numbers sampleEngine liveState 0 sampleFont 1 2 3 4 rfl).1

theorem SetColor_args_table {ν : Type} (E : Engine ν) (msg : String)
    (isnil : Option (LuaValue ν) → Bool) (a1 : LuaValue ν) (t : List (LuaValue ν))
    (rest : List (LuaValue ν)) :
    (rejectedColorArgs E (a1 :: .table t :: rest) = true →
        ∃ e, SetColor_args E msg isnil (a1 :: .table t :: rest) = .error e
          ∧ argumentError msg e)
    ∧ (rejectedColorArgs E (a1 :: .table t :: rest) = false →
        ∃ c, SetColor_args E msg isnil (a1 :: .table t :: rest) = .ok c) := by
  have hlen : ∀ n : Nat, ¬ (n + 1 + 1 < 2) := fun n => by omega
  by_cases hl : (ParseFloatArray E t 4).length < 3
  · simp [rejectedColorArgs, lua_isnumber, SetColor_args, argumentError, index, lua_istable, hl, hlen]
  · by_cases h3 : (ParseFloatArray E t 4).length = 3
    · simp [rejectedColorArgs, lua_isnumber, SetColor_args, argumentError, index, lua_istable, h3, hlen]
    · simp [rejectedColorArgs, lua_isnumber, SetColor_args, argumentError, index, lua_istable, hl, h3, hlen]

theorem SetColor_args_of_not_table {ν : Type} (E : Engine ν) (msg : String)
    (isnil : Option (LuaValue ν) → Bool) (a1 a2 : LuaValue ν) (rest : List (LuaValue ν))
    (h : lua_istable (some a2) = false) :
    SetColor_args E msg isnil (a1 :: a2 :: rest)
      = if (a1 :: a2 :: rest).length ≥ 4 then
          (luaL_checkfloat E (a1 :: a2 :: rest) 2).bind fun x =>
          (luaL_checkfloat E (a1 :: a2 :: rest) 3).bind fun y =>
          (luaL_checkfloat E (a1 :: a2 :: rest) 4).bind fun z =>
          (luaL_optfloat E (a1 :: a2 :: rest) 5 (E.int2number 1)).bind fun w =>
          .ok { x := x, y := y, z := z, w := w }
        else if !isnil (some a2) then .error (.error msg)
        else .ok E.float4_default := by
  have hlen : ∀ n : Nat, ¬ (n + 1 + 1 < 2) := fun n => by omega
  cases a2 <;> simp [lua_istable] at h <;>
    simp [SetColor_args, index, hlen, bind, pure, Except.pure]

theorem SetColor_args_discrete {ν : Type} (E : Engine ν) (msg : String)
    (isnil : Option (LuaValue ν) → Bool) (a1 a2 a3 a4 : LuaValue ν) (rest : List (LuaValue ν))
    (h : lua_istable (some a2) = false) :
    (rejectedColorArgs E (a1 :: a2 :: a3 :: a4 :: rest) = true →
        ∃ e, SetColor_args E msg isnil (a1 :: a2 :: a3 :: a4 :: rest) = .error e
          ∧ argumentError msg e)
    ∧ (rejectedColorArgs E (a1 :: a2 :: a3 :: a4 :: rest) = false →
        ∃ c, SetColor_args E msg isnil (a1 :: a2 :: a3 :: a4 :: rest) = .ok c) := by
  have hlen : ∀ n : Nat, ¬ (n + 1 + 1 < 2) := fun n => by omega
  have hlen4 : ∀ n : Nat, ¬ (n + 1 + 1 + 1 + 1 < 4) := fun n => by omega
  have hnt : ∀ t, a2 ≠ LuaValue.table t := by
    intro t ht
    simp [ht, lua_istable] at h
  rw [SetColor_args_of_not_table E msg isnil a1 a2 (a3 :: a4 :: rest) h]
  obtain ⟨o2, h2⟩ : ∃ o, lua_tonumber E (some a2) = o := ⟨_, rfl⟩
  obtain ⟨o3, h3⟩ : ∃ o, lua_tonumber E (some a3) = o := ⟨_, rfl⟩
  obtain ⟨o4, h4⟩ : ∃ o, lua_tonumber E (some a4) = o := ⟨_, rfl⟩
  cases rest with
  | nil =>
    cases o2 <;> cases o3 <;> cases o4 <;>
      simp [rejectedColorArgs, lua_isnumber, argumentError, index, h, luaL_checkfloat, luaL_optfloat,
        lua_isnoneornil, h2, h3, h4, Except.bind, hlen, hlen4, hnt]
  | cons a5 rest =>
    obtain ⟨o5, h5⟩ : ∃ o, lua_tonumber E (some a5) = o := ⟨_, rfl⟩
    obtain ⟨b5, hb5⟩ : ∃ b, lua_isnoneornil (some a5) = b := ⟨_, rfl⟩
    cases o2 <;> cases o3 <;> cases o4 <;> cases o5 <;> cases b5 <;>
      simp [rejectedColorArgs, lua_isnumber, argumentError, index, h, luaL_checkfloat, luaL_optfloat,
        h2, h3, h4, h5, hb5, Except.bind, hlen, hlen4, hnt]

theorem SetColor_args_spec {ν : Type} (E : Engine ν) (msg : String)
    (isnil : Option (LuaValue ν) → Bool) (args : List (LuaValue ν))
    (hisnil : ∀ v, isnil (some v) = lua_isnil (some v)) :
    (rejectedColorArgs E args = true →
        ∃ e, SetColor_args E msg isnil args = .error e ∧ argumentError msg e)
    ∧ (rejectedColorArgs E args = false → ∃ c, SetColor_args E msg isnil args = .ok c) := by
  match args with
  | [] => simp [rejectedColorArgs, lua_isnumber, SetColor_args, argumentError]
  | [_] => simp [rejectedColorArgs, lua_isnumber, SetColor_args, argumentError]
  | [a1, a2] =>
    cases a2 with
    | table t => exact SetColor_args_table E msg isnil a1 t []
    | _ =>
      simp [rejectedColorArgs, lua_isnumber, SetColor_args, argumentError, index, hisnil, lua_isnil,
        lua_istable]
  | [a1, a2, a3] =>
    cases a2 with
    | table t => exact SetColor_args_table E msg isnil a1 t [a3]
    | _ =>
      simp [rejectedColorArgs, lua_isnumber, SetColor_args, argumentError, index, hisnil, lua_isnil,
        lua_istable]
  | a1 :: a2 :: a3 :: a4 :: rest =>
    cases a2 with
    | table t => exact SetColor_args_table E msg isnil a1 t (a3 :: a4 :: rest)
    | _ => exact SetColor_args_discrete E msg isnil a1 _ a3 a4 rest rfl

/-- C2, as stated, fails: a nil colour argument and five discrete numbers are not among
the well-formed argument lists, yet both setters return without an error and call the
colour setter of the font (for nil with the `float4` that was never assigned). -/
theorem C2_counterexample :
    wellFormedColorArgs [(LuaValue.nil : LuaValue Rat)] = false
    ∧ SetTextColor sampleEngine liveState [.userdata 0, .nil]
        = ⟨.ok [], { liveState with calls := [.SetTextColor 0 ⟨0, 0, 0, 0⟩] }⟩
    ∧ SetOutlineColor sampleEngine liveState [.userdata 0, .nil]
        = ⟨.ok [], { liveState with calls := [.SetOutlineColor 0 ⟨0, 0, 0, 0⟩] }⟩
    ∧ wellFormedColorArgs
        [(LuaValue.number 1 : LuaValue Rat), .number 2, .number 3, .number 4, .number 5] = false
    ∧ SetTextColor sampleEngine liveState
          [.userdata 0, .number 1, .number 2, .number 3, .number 4, .number 5]
        = ⟨.ok [], { liveState with calls := [.SetTextColor 0 ⟨1, 2, 3, 4⟩] }⟩ :=
  ⟨rfl, rfl, rfl, rfl, rfl⟩

/-- C2, amended: on a live handle, `SetTextColor` and `SetOutlineColor` raise an argument
error and do not call the colour setter of the font (the state is unchanged) for exactly
the argument lists of `rejectedColorArgs`: nothing after the handle; a table whose
numeric sequence has fewer than 3 elements; fewer than 3 arguments after the handle, the
first neither a table nor nil; at least 3 arguments after the handle, the first not a
table, and one of arguments 2 to 4 not a number or argument 5 present, not nil and not a
number.  Every other argument list is accepted without an error, among them a nil second
argument with fewer than 3 arguments after the handle, and arguments beyond the fifth. -/
theorem C2_malformed_color_rejected {ν : Type} (E : Engine ν) (L : lua_State ν)
    (args : List (LuaValue ν)) (id : Nat) (f : CglFont ν)
    (harg : index args 1 = some (.userdata id))
    (hlive : L.udata[id]? = some ⟨"Font", some f⟩) :
    (rejectedColorArgs E args = true →
      (∃ e, (SetTextColor E L args).ret = .error e
          ∧ argumentError "Incorrect arguments to font:SetTextColor([\"textColor\"])" e)
      ∧ (SetTextColor E L args).L = L
      ∧ (∃ e, (SetOutlineColor E L args).ret = .error e
          ∧ argumentError "Incorrect arguments to font:SetOutlineColor([\"outlineColor\"])" e)
      ∧ (SetOutlineColor E L args).L = L)
    ∧ (rejectedColorArgs E args = false →
      (SetTextColor E L args).ret = .ok [] ∧ (SetOutlineColor E L args).ret = .ok []) := by
  have ht := tofont_of_live L args id f harg hlive
  have h1 := SetColor_args_spec E "Incorrect arguments to font:SetTextColor([\"textColor\"])"
    lua_isnil args (fun _ => rfl)
  have h2 := SetColor_args_spec E
    "Incorrect arguments to font:SetOutlineColor([\"outlineColor\"])"
    lua_isnoneornil args (fun v => by cases v <;> rfl)
  constructor
  · intro hrej
    obtain ⟨e1, he1, hm1⟩ := h1.1 hrej
    obtain ⟨e2, he2, hm2⟩ := h2.1 hrej
    simp [SetTextColor, SetOutlineColor, ht, he1, he2, hm1, hm2]
  · intro hacc
    obtain ⟨c1, hc1⟩ := h1.2 hacc
    obtain ⟨c2, hc2⟩ := h2.2 hacc
    simp [SetTextColor, SetOutlineColor, ht, hc1, hc2]

/-- C2 at a concrete input: a string as the only colour argument. -/
theorem C2_malformed_color_rejected_witness :
    rejectedColorArgs sampleEngine [.userdata 0, .string "red"] = true
    ∧ (SetTextColor sampleEngine liveState [.userdata 0, .string "red"]).L = liveState
    ∧ (SetOutlineColor sampleEngine liveState [.userdata 0, .string "red"]).L = liveState :=
  have hrej : rejectedColorArgs sampleEngine [.userdata 0, .string "red"] = true := rfl
  have h := (C2_malformed_color_rejected sampleEngine liveState [.userdata 0, .string "red"] 0
    sampleFont rfl rfl).1 hrej
  ⟨hrej, h.2.1, h.2.2.2⟩

/-! ## Property lookup (C7, C9) -/

theorem cstr_size : cstr "size" = "size" := by decide

theorem cstr_path : cstr "path" = "path" := by decide

theorem lookup_none_of_not_mem_keys {β : Type} (l : List (String × β)) (s : String)
    (h : s ∉ l.map Prod.fst) : l.lookup s = none := by
  induction l with
  | nil => rfl
  | cons p l ih =>
    obtain ⟨k, v⟩ := p
    simp only [List.map, List.mem_cons, not_or] at h
    have hk : (s == k) = false := beq_false_of_ne h.1
    simp [List.lookup, hk, ih h.2]

theorem lookup_eq_none_of_not_mem {ν : Type} (s : String) (h : s ∉ methodTableKeys) :
    (CreateMetatable (ν := ν)).lookup s = none :=
  lookup_none_of_not_mem_keys _ s h

theorem lookup_isSome_of_mem {ν : Type} (s : String) (h : s ∈ methodTableKeys) :
    ∃ v, (CreateMetatable (ν := ν)).lookup s = some v := by
  simp only [methodTableKeys, CreateMetatable, List.map, List.mem_cons, List.mem_singleton,
    List.not_mem_nil, or_false] at h
  rcases h with h | h | h | h | h | h | h | h | h | h | h | h | h <;> subst h <;>
    exact ⟨_, rfl⟩

theorem meta_index_of_method {ν : Type} (E : Engine ν) (L : lua_State ν) (a1 : LuaValue ν)
    (s : String) (v : LuaValue ν) (h : (CreateMetatable (ν := ν)).lookup s = some v) :
    meta_index E L [a1, .string s] = ⟨.ok [v], L⟩ := by
  simp [meta_index, index, lua_rawget, h]

theorem meta_index_of_property {ν : Type} (E : Engine ν) (L : lua_State ν) (id : Nat)
    (f : CglFont ν) (s : String) (hlive : L.udata[id]? = some ⟨"Font", some f⟩)
    (h : (CreateMetatable (ν := ν)).lookup s = none) :
    meta_index E L [.userdata id, .string s] = ⟨.ok (meta_index_switch E f (cstr s)), L⟩ := by
  have ht := tofont_of_live L [.userdata id, .string s] id f rfl hlive
  simp [meta_index, index, lua_rawget, h, ht]

theorem meta_index_switch_of_not_label {ν : Type} (E : Engine ν) (f : CglFont ν) (key : String)
    (h : E.hashString key ∉ propertyNames.map E.hashString) :
    meta_index_switch E f key = [] := by
  simp only [propertyNames, List.map, List.mem_cons, List.mem_singleton, List.not_mem_nil,
    or_false, not_or] at h
  obtain ⟨h1, h2, h3, h4, h5, h6, h7, h8, h9, h10, h11⟩ := h
  simp [meta_index_switch, h1, h2, h3, h4, h5, h6, h7, h8, h9, h10, h11]

theorem meta_index_switch_size {ν : Type} (E : Engine ν) (f : CglFont ν) :
    meta_index_switch E f "size" = [.number (E.int2number f.fontSize)] := by
  simp [meta_index_switch]

theorem meta_index_switch_path {ν : Type} (E : Engine ν) (f : CglFont ν) :
    meta_index_switch E f "path" = [.string f.fontPath] := by
  have h := E.hashString_labels
  simp only [propertyNames, List.map, List.nodup_cons, List.mem_cons, not_or] at h
  have hne : E.hashString "path" ≠ E.hashString "size" := fun e => h.1.1 e.symm
  simp [meta_index_switch, hne]

theorem LoadFont_args_of_error {ν : Type} (E : Engine ν) (args : List (LuaValue ν))
    (h : (∃ e, luaL_optint E args 3 2 = .error e)
      ∨ (∃ e, luaL_optfloat E args 4 (E.int2number 15) = .error e)) :
    ∃ e, LoadFont_args E args = .error e := by
  cases hr : E.argsRightToLeft <;> cases h1 : luaL_checkstring E args 1 <;>
    cases h2 : luaL_optint E args 2 14 <;> cases h3 : luaL_optint E args 3 2 <;>
    cases h4 : luaL_optfloat E args 4 (E.int2number 15) <;>
    simp [LoadFont_args, hr, h1, h2, h3, h4, bind, Except.bind, pure, Except.pure] at h ⊢

theorem LoadFont_args_of_ok {ν : Type} (E : Engine ν) (args : List (LuaValue ν))
    (path : String) (size outlinewidth : Int) (outlineweight : ν)
    (h1 : luaL_checkstring E args 1 = .ok path) (h2 : luaL_optint E args 2 14 = .ok size)
    (h3 : luaL_optint E args 3 2 = .ok outlinewidth)
    (h4 : luaL_optfloat E args 4 (E.int2number 15) = .ok outlineweight) :
    LoadFont_args E args = .ok (path, size, outlinewidth, outlineweight) := by
  cases hr : E.argsRightToLeft <;>
    simp [LoadFont_args, hr, h1, h2, h3, h4, bind, Except.bind, pure, Except.pure]

theorem LoadFont_of_ok {ν : Type} (E : Engine ν) (L : lua_State ν) (path : String)
    (size : Option ν) (more : List (LuaValue ν)) (id : Nat)
    (hload : (LoadFont E L (loadArgs path size more)).ret = .ok [.userdata id]) :
    ∃ f : CglFont ν, f.fontSize = loadedSize E size ∧ f.fontPath = cstr path
      ∧ ((LoadFont E L (loadArgs path size more)).L).udata[id]? = some ⟨"Font", some f⟩ := by
  have hsz : luaL_optint E (loadArgs path size more) 2 14 = .ok (loadedSize E size) := by
    cases size <;>
      simp [loadArgs, loadedSize, luaL_optint, index, lua_isnoneornil, lua_tonumber]
  have hp : luaL_checkstring E (loadArgs path size more) 1 = .ok path := by
    cases size <;> simp [loadArgs, luaL_checkstring, index, lua_tostring]
  cases h3 : luaL_optint E (loadArgs path size more) 3 2 with
  | error e =>
    obtain ⟨e', he'⟩ := LoadFont_args_of_error E _ (Or.inl ⟨e, h3⟩)
    simp [LoadFont, he'] at hload
  | ok ow =>
    cases h4 : luaL_optfloat E (loadArgs path size more) 4 (E.int2number 15) with
    | error e =>
      obtain ⟨e', he'⟩ := LoadFont_args_of_error E _ (Or.inr ⟨e, h4⟩)
      simp [LoadFont, he'] at hload
    | ok owt =>
      have hargs := LoadFont_args_of_ok E _ path _ ow owt hp hsz h3 h4
      cases hf : E.face (cstr path) with
      | none => simp [LoadFont, hargs, CglFont.LoadFont, hf] at hload
      | some a =>
        simp [LoadFont, hargs, CglFont.LoadFont, hf] at hload
        subst hload
        simp [LoadFont, hargs, CglFont.LoadFont, hf]

theorem cstr_of_no_nul (s : String) (h : Char.ofNat 0 ∉ s.data) : cstr s = s := by
  have ht : s.data.takeWhile (fun c => c != Char.ofNat 0) = s.data := by
    rw [List.takeWhile_eq_self_iff]
    intro c hc
    have hne : c ≠ Char.ofNat 0 := fun e => h (e ▸ hc)
    simp [hne]
  cases s
  simp only [cstr] at ht ⊢
  rw [ht]

/-- C7, as stated, fails: `LoadFont("a.ttf", 12.5)` loads, and the property "size" of the
handle then reads 12, not 12.5, because `LoadFont` takes the size with `luaL_optint`;
and with an `int` of 32 bits `LoadFont("a.ttf", 4294967296)` loads and reads size 0. -/
theorem C7_counterexample :
    (LoadFont sampleEngine emptyState [.string "a.ttf", .number twelveAndHalf]).ret
        = .ok [.userdata 0]
    ∧ (meta_index sampleEngine
          (LoadFont sampleEngine emptyState [.string "a.ttf", .number twelveAndHalf]).L
          [.userdata 0, .string "size"]).ret = .ok [.number 12]
    ∧ (12 : Rat) ≠ twelveAndHalf
    ∧ (LoadFont sampleEngine emptyState [.string "a.ttf", .number (Rat.ofInt 4294967296)]).ret
        = .ok [.userdata 0]
    ∧ (meta_index sampleEngine
          (LoadFont sampleEngine emptyState
            [.string "a.ttf", .number (Rat.ofInt 4294967296)]).L
          [.userdata 0, .string "size"]).ret = .ok [.number 0]
    ∧ (0 : Rat) ≠ Rat.ofInt 4294967296 :=
  ⟨rfl, rfl, by decide, rfl, rfl, by decide⟩

/-- C7, amended: when `LoadFont` with a path and an optional numeric size loads the font,
reading "size" through `meta_index` on the returned handle gives the size converted to
an `int` as `luaL_optint` does and back to a number (14 when the size was omitted); that
is the size passed if and only if this conversion gives the size back.  Reading "path"
gives the path as the loader received it, a C string: the characters of the path before
its first NUL, so the path passed when it holds no NUL. -/
theorem C7_properties_after_load {ν : Type} (E : Engine ν) (L : lua_State ν) (path : String)
    (size : Option ν) (more : List (LuaValue ν)) (id : Nat)
    (hload : (LoadFont E L (loadArgs path size more)).ret = .ok [.userdata id]) :
    (meta_index E (LoadFont E L (loadArgs path size more)).L
        [.userdata id, .string "size"]).ret
      = .ok [.number (E.int2number (loadedSize E size))]
    ∧ (meta_index E (LoadFont E L (loadArgs path size more)).L
        [.userdata id, .string "path"]).ret
      = .ok [.string (cstr path)]
    ∧ (∀ s, size = some s →
        ((meta_index E (LoadFont E L (loadArgs path size more)).L
            [.userdata id, .string "size"]).ret = .ok [.number s]
          ↔ E.int2number (E.lua_number2int s) = s))
    ∧ (Char.ofNat 0 ∉ path.data →
        (meta_index E (LoadFont E L (loadArgs path size more)).L
          [.userdata id, .string "path"]).ret = .ok [.string path]) := by
  obtain ⟨f, hsize, hpath, hlive⟩ := LoadFont_of_ok E L path size more id hload
  have h1 : (meta_index E (LoadFont E L (loadArgs path size more)).L
        [.userdata id, .string "size"]).ret
      = .ok [.number (E.int2number (loadedSize E size))] := by
    rw [meta_index_of_property E _ id f "size" hlive rfl, cstr_size, meta_index_switch_size,
      hsize]
  have h2 : (meta_index E (LoadFont E L (loadArgs path size more)).L
        [.userdata id, .string "path"]).ret
      = .ok [.string (cstr path)] := by
    rw [meta_index_of_property E _ id f "path" hlive rfl, cstr_path, meta_index_switch_path,
      hpath]
  refine ⟨h1, h2, ?_, ?_⟩
  · intro s hs
    subst hs
    rw [h1]
    simp [loadedSize]
  · intro h0
    rw [h2, cstr_of_no_nul path h0]

/-- C7 at a concrete input: `LoadFont("a.ttf", 12)` reads size 12 and path "a.ttf". -/
theorem C7_properties_after_load_witness :
    (meta_index sampleEngine (LoadFont sampleEngine emptyState [.string "a.ttf", .number 12]).L
        [.userdata 0, .string "size"]).ret = .ok [.number 12]
    ∧ (meta_index sampleEngine (LoadFont sampleEngine emptyState [.string "a.ttf", .number 12]).L
        [.userdata 0, .string "path"]).ret = .ok [.string "a.ttf"] :=
  have h := C7_properties_after_load sampleEngine emptyState "a.ttf" (some 12) [] 0 rfl
  ⟨(h.2.2.1 12 rfl).2 (by decide), h.2.2.2 (by decide)⟩

theorem LoadFont_bad_arguments_right_to_left :
    (LoadFont sampleEngine emptyState [.nil, .boolean true]).ret
        = .error (.typerror 2 "number")
    ∧ (LoadFont sampleEngine emptyState [.string "a.ttf", .boolean true, .boolean true]).ret
        = .error (.typerror 3 "number")
    ∧ (LoadFont { sampleEngine with argsRightToLeft := false } emptyState
          [.nil, .boolean true]).ret = .error (.typerror 1 "string") :=
  ⟨rfl, rfl, rfl⟩

theorem meta_index_size_of_cstr {ν : Type} (E : Engine ν) (L : lua_State ν) (id : Nat)
    (f : CglFont ν) (key : String) (hlive : L.udata[id]? = some ⟨"Font", some f⟩)
    (hkey : key ∉ methodTableKeys) (hc : cstr key = "size") :
    meta_index E L [.userdata id, .string key]
      = ⟨.ok [.number (E.int2number f.fontSize)], L⟩ := by
  rw [meta_index_of_property E L id f key hlive (lookup_eq_none_of_not_mem key hkey), hc,
    meta_index_switch_size]

/-- C9, as stated, fails: the string s,i,z,e,NUL,x is neither a key of the method table
nor a property name, and `meta_index` returns the size for it, because `hashString` gets
the key as a C string, which ends at the NUL; and under the DJB2 hash the string
"si\x7bD" has the hash of "size", so it reads the size as well. -/
theorem C9_counterexample :
    sizeNulKey ∉ methodTableKeys ∧ sizeNulKey ∉ propertyNames
    ∧ (meta_index sampleEngine liveState [.userdata 0, .string sizeNulKey]).ret
        = .ok [.number 12]
    ∧ "si\x7bD" ∉ methodTableKeys ∧ "si\x7bD" ∉ propertyNames
    ∧ (meta_index sampleEngine liveState [.userdata 0, .string "si\x7bD"]).ret
        = .ok [.number 12] :=
  ⟨by decide, by decide, rfl, by decide, by decide, rfl⟩

/-- C9, amended: for a live font handle, `meta_index` returns nothing and raises no error
for every key that is not a string, and for every string key that is not a key of the
"Font" method table and whose `hashString`, taken over its characters before the first
NUL, is not the hash of a property name; and for every key of the method table it
returns the value the method table holds, without reaching the property switch. -/
theorem C9_lookup {ν : Type} (E : Engine ν) (L : lua_State ν) (id : Nat) (f : CglFont ν)
    (key : LuaValue ν) (hlive : L.udata[id]? = some ⟨"Font", some f⟩) :
    ((∀ s, key = .string s →
        s ∉ methodTableKeys ∧ E.hashString (cstr s) ∉ propertyNames.map E.hashString) →
      meta_index E L [.userdata id, key] = ⟨.ok [], L⟩)
    ∧ (∀ s ∈ methodTableKeys, key = .string s →
        ∃ v, (CreateMetatable (ν := ν)).lookup s = some v
          ∧ meta_index E L [.userdata id, key] = ⟨.ok [v], L⟩) := by
  constructor
  · intro h
    have ht := tofont_of_live L [.userdata id, key] id f rfl hlive
    cases key with
    | string s =>
      obtain ⟨hm, hh⟩ := h s rfl
      rw [meta_index_of_property E L id f s hlive (lookup_eq_none_of_not_mem s hm),
        meta_index_switch_of_not_label E f (cstr s) hh]
    | _ => simp [meta_index, index, lua_rawget, ht]
  · intro s hs hkey
    subst hkey
    obtain ⟨v, hv⟩ := lookup_isSome_of_mem (ν := ν) s hs
    exact ⟨v, hv, meta_index_of_method E L _ s v hv⟩

/-- C9 at a concrete input: the key "colour", the number 7, and the method "Print". -/
theorem C9_lookup_witness :
    meta_index sampleEngine liveState [.userdata 0, .string "colour"] = ⟨.ok [], liveState⟩
    ∧ meta_index sampleEngine liveState [.userdata 0, .number 7] = ⟨.ok [], liveState⟩
    ∧ ∃ v, (CreateMetatable (ν := Rat)).lookup "Print" = some v
        ∧ meta_index sampleEngine liveState [.userdata 0, .string "Print"]
            = ⟨.ok [v], liveState⟩ :=
  ⟨(C9_lookup sampleEngine liveState 0 sampleFont (.string "colour") rfl).1
      (fun s hs => by
        cases hs
        exact ⟨by decide, by decide⟩),
   (C9_lookup sampleEngine liveState 0 sampleFont (.number 7) rfl).1
      (fun s hs => by cases hs),
   (C9_lookup sampleEngine liveState 0 sampleFont (.string "Print") rfl).2 "Print"
      (by decide) rfl⟩

/-! ## `Print` draws with the parsed options -/

theorem Print_of_option_string {ν : Type} (E : Engine ν) (L : lua_State ν) (id : Nat)
    (f : CglFont ν) (text s : String) (x y size : ν) (hd : L.drawingEnabled = true)
    (hlive : L.udata[id]? = some ⟨"Font", some f⟩) :
    LuaFonts.Print E L
        [.userdata id, .string text, .number x, .number y, .number size, .string s]
      = ⟨.ok [], { L with calls :=
            L.calls ++ [.glPrint f.this x y size (Print_options E.flags s) text] }⟩ := by
  have ht := tofont_of_live L
    [.userdata id, .string text, .number x, .number y, .number size, .string s] id f rfl hlive
  simp [LuaFonts.Print, Print_args, CheckDrawingEnabled, hd, ht, luaL_checkstring,
    luaL_checkfloat, luaL_optfloat, lua_tostring, lua_tonumber, lua_isnoneornil, lua_isstring,
    index, bind, Except.bind, pure, Except.pure]

end Spring
